

import Mathlib

/-!
Verification of the trmnl-display repository core: the memory-mapped
framebuffer surface (At/Set with 16/24/32-bit packing), the fallback BMP
decoder, the framebuffer lock, and the sub-framebuffer view.

Machine integers are modelled as Nat (bytes are values taken modulo 256);
bitwise OR of values with disjoint bit ranges is written as addition, and
shifts and masks as division and remainder by powers of two, which is the
same function on the byte ranges involved.
-/

/-- An 8-bit-per-channel RGBA color, the Go color.RGBA struct. -/
structure RGBA where
  r : Nat
  g : Nat
  b : Nat
  a : Nat
deriving DecidableEq

/-- Reading byte i of a byte buffer; cells represent bytes, so values are
reduced modulo 256. Out-of-range indices give 0 (every use in the model is
guarded exactly where the Go code guards, or noted otherwise). -/
def byteAt (d : List Nat) (i : Nat) : Nat := d.getD i 0 % 256

/-- rgb565ToRGBA from the framebuffer source: extract the 5-6-5 fields
(mask and shift written as division/remainder) and replicate the top bits
into the low bits (the bitwise OR r |= r >> 5 is addition because the
shifted value occupies only the zeroed low bits). -/
def rgb565ToRGBA (pixel : Nat) : RGBA :=
  ⟨(pixel / 2048 % 32) * 8 + (pixel / 2048 % 32) * 8 / 32,
   (pixel / 32 % 64) * 4 + (pixel / 32 % 64) * 4 / 64,
   (pixel % 32) * 8 + (pixel % 32) * 8 / 32,
   255⟩

/-- rgbaToRGB565 from the framebuffer source: truncate the 8-bit channels
to 5/6/5 bits and pack them (the OR of the three disjoint fields is
addition). -/
def rgbaToRGB565 (r g b : Nat) : Nat :=
  (r / 8 % 32) * 2048 + (g / 4 % 64) * 32 + (b / 8 % 32)

/-- The Framebuffer struct from the source: a mapped byte region plus the
probed geometry. The file handle is not modelled. -/
structure Framebuffer where
  data : List Nat
  width : Nat
  height : Nat
  stride : Nat
  colorDepth : Nat
deriving DecidableEq

/-- Byte offset of pixel (x,y), as computed in Framebuffer.At and
Framebuffer.Set after the bounds check (so x and y are nonnegative). -/
def fbOffset (fb : Framebuffer) (x y : Int) : Nat :=
  y.toNat * fb.stride + x.toNat * (fb.colorDepth / 8)

/-- Framebuffer.At from the source: bounds-checked pixel read, decoding
per color depth; out-of-range coordinates or a read past the mapped
region give the zero color. -/
def Framebuffer.At (fb : Framebuffer) (x y : Int) : RGBA :=
  if x < 0 ∨ y < 0 ∨ (fb.width : Int) ≤ x ∨ (fb.height : Int) ≤ y then ⟨0, 0, 0, 0⟩
  else if fb.colorDepth = 16 then
    if fb.data.length ≤ fbOffset fb x y + 1 then ⟨0, 0, 0, 0⟩
    else rgb565ToRGBA (byteAt fb.data (fbOffset fb x y) +
                       byteAt fb.data (fbOffset fb x y + 1) * 256)
  else if fb.colorDepth = 24 then
    if fb.data.length ≤ fbOffset fb x y + 2 then ⟨0, 0, 0, 0⟩
    else ⟨byteAt fb.data (fbOffset fb x y + 2),
          byteAt fb.data (fbOffset fb x y + 1),
          byteAt fb.data (fbOffset fb x y), 255⟩
  else if fb.colorDepth = 32 then
    if fb.data.length ≤ fbOffset fb x y + 3 then ⟨0, 0, 0, 0⟩
    else ⟨byteAt fb.data (fbOffset fb x y + 2),
          byteAt fb.data (fbOffset fb x y + 1),
          byteAt fb.data (fbOffset fb x y),
          byteAt fb.data (fbOffset fb x y + 3)⟩
  else ⟨0, 0, 0, 0⟩

/-- Framebuffer.Set from the source, after c.RGBA() has produced the four
16-bit channel values r g b a: each is reduced to a byte by a right shift
of 8 (division by 256, reduced modulo 256 as uint8 does), then encoded per
color depth. Writes past the mapped region are dropped exactly where the
source checks the offset. -/
def Framebuffer.SetChannels (fb : Framebuffer) (x y : Int) (r g b a : Nat) : Framebuffer :=
  if x < 0 ∨ y < 0 ∨ (fb.width : Int) ≤ x ∨ (fb.height : Int) ≤ y then fb
  else if fb.colorDepth = 16 then
    if fb.data.length ≤ fbOffset fb x y + 1 then fb
    else { fb with data :=
      ((fb.data.set (fbOffset fb x y)
          (rgbaToRGB565 (r / 256 % 256) (g / 256 % 256) (b / 256 % 256) % 256)).set
        (fbOffset fb x y + 1)
          (rgbaToRGB565 (r / 256 % 256) (g / 256 % 256) (b / 256 % 256) / 256 % 256)) }
  else if fb.colorDepth = 24 then
    if fb.data.length ≤ fbOffset fb x y + 2 then fb
    else { fb with data :=
      (((fb.data.set (fbOffset fb x y) (b / 256 % 256)).set
         (fbOffset fb x y + 1) (g / 256 % 256)).set
         (fbOffset fb x y + 2) (r / 256 % 256)) }
  else if fb.colorDepth = 32 then
    if fb.data.length ≤ fbOffset fb x y + 3 then fb
    else { fb with data :=
      ((((fb.data.set (fbOffset fb x y) (b / 256 % 256)).set
          (fbOffset fb x y + 1) (g / 256 % 256)).set
          (fbOffset fb x y + 2) (r / 256 % 256)).set
          (fbOffset fb x y + 3) (a / 256 % 256)) }
  else fb

/-- Framebuffer.Set applied to a color.RGBA value c: the Go RGBA method
returns each 8-bit channel replicated to 16 bits (v | v << 8, i.e.
v * 257), which Set then reduces back to bytes. -/
def Framebuffer.Set (fb : Framebuffer) (x y : Int) (c : RGBA) : Framebuffer :=
  fb.SetChannels x y (c.r * 257) (c.g * 257) (c.b * 257) (c.a * 257)

/-- A rectangle as in the Go image package: Min (x0,y0) and Max (x1,y1). -/
structure Rect where
  x0 : Int
  y0 : Int
  x1 : Int
  y1 : Int
deriving DecidableEq

/-- image.Point.In: Min.X ≤ x < Max.X and Min.Y ≤ y < Max.Y. -/
def ptIn (x y : Int) (r : Rect) : Prop :=
  r.x0 ≤ x ∧ x < r.x1 ∧ r.y0 ≤ y ∧ y < r.y1

instance (x y : Int) (r : Rect) : Decidable (ptIn x y r) := by
  unfold ptIn
  infer_instance

/-- image.Rectangle.Intersect: componentwise max/min, and the zero
rectangle when the result is empty (Min.X ≥ Max.X or Min.Y ≥ Max.Y). -/
def Rect.inter (r s : Rect) : Rect :=
  if min r.x1 s.x1 ≤ max r.x0 s.x0 ∨ min r.y1 s.y1 ≤ max r.y0 s.y0 then ⟨0, 0, 0, 0⟩
  else ⟨max r.x0 s.x0, max r.y0 s.y0, min r.x1 s.x1, min r.y1 s.y1⟩

/-- The bounds field of a Framebuffer, set by detectFormat to
image.Rect(0, 0, width, height). -/
def Framebuffer.bounds (fb : Framebuffer) : Rect :=
  ⟨0, 0, (fb.width : Int), (fb.height : Int)⟩

/-- The subFramebuffer struct from the source: a borrowed parent surface
plus a view rectangle. -/
structure subFramebuffer where
  fb : Framebuffer
  bounds : Rect
deriving DecidableEq

/-- Framebuffer.SubImage from the source: intersect the requested
rectangle with the surface bounds; an empty intersection yields a view
with the zero rectangle. -/
def Framebuffer.SubImage (fb : Framebuffer) (r : Rect) : subFramebuffer :=
  if min r.x1 (fb.bounds).x1 ≤ max r.x0 (fb.bounds).x0 ∨
     min r.y1 (fb.bounds).y1 ≤ max r.y0 (fb.bounds).y0 then
    subFramebuffer.mk fb ⟨0, 0, 0, 0⟩
  else subFramebuffer.mk fb (r.inter fb.bounds)

/-- subFramebuffer.At from the source: delegates to the parent surface
with no check against the view rectangle. -/
def subFramebuffer.At (sf : subFramebuffer) (x y : Int) : RGBA :=
  sf.fb.At x y

/-- subFramebuffer.Set from the source: a no-op unless the point lies in
the view rectangle, then delegates to the parent surface. -/
def subFramebuffer.Set (sf : subFramebuffer) (x y : Int) (c : RGBA) : subFramebuffer :=
  if ptIn x y sf.bounds then subFramebuffer.mk (sf.fb.Set x y c) sf.bounds else sf

/-- State of the lock marker file: none means no file at the lock path,
some pid means the file exists and its content parses as that process
identifier. -/
structure LockState where
  marker : Option Int
deriving DecidableEq

/-- Error result of FramebufferLock.Acquire when the owner is alive; the
Go error message carries the owning pid. -/
inductive AcquireError where
  | deviceBusy (pid : Int) : AcquireError
deriving DecidableEq

/-- FramebufferLock.Acquire from the source, with the filesystem modelled
as a LockState and process liveness (isProcessRunning, a zero-signal
probe) as the oracle alive. File read, remove and write operations are
assumed to succeed; their error returns are not modelled. If a marker
exists and its owner is alive, fail with the busy error and leave the
marker as it is; otherwise remove any stale marker and write a marker
holding the calling process identifier selfPid. -/
def lockAcquire (alive : Int → Bool) (selfPid : Int) (s : LockState) :
    Option AcquireError × LockState :=
  match s.marker with
  | some pid =>
    if alive pid then (some (.deviceBusy pid), s)
    else (none, ⟨some selfPid⟩)
  | none => (none, ⟨some selfPid⟩)

/-- The depth-override step of OpenFramebufferWithDepth: after
detectFormat has probed the geometry, the forced depth replaces the
probed depth and the stride is recomputed as width times bytes per pixel
whenever the forced depth is one of the three supported constants. -/
def applyForcedDepth (fb : Framebuffer) (depth : Nat) : Framebuffer :=
  if depth = 16 ∨ depth = 24 ∨ depth = 32 then
    { fb with colorDepth := depth, stride := fb.width * (depth / 8) }
  else fb

/-- Little-endian 16-bit read at byte offset i (the OR of disjoint byte
fields is addition). -/
def u16at (d : List Nat) (i : Nat) : Nat := byteAt d i + byteAt d (i + 1) * 256

/-- Little-endian 32-bit read at byte offset i. -/
def u32at (d : List Nat) (i : Nat) : Nat :=
  byteAt d i + byteAt d (i + 1) * 256 + byteAt d (i + 2) * 65536 + byteAt d (i + 3) * 16777216

/-- The 32-bit value at offset i reinterpreted as a signed int32, as the
Go code does with int(int32(u32)). -/
def i32at (d : List Nat) (i : Nat) : Int :=
  if u32at d i < 2147483648 then (u32at d i : Int) else (u32at d i : Int) - 4294967296

/-- Result of decodeCustomBMP when it does not produce an image.
indexOutOfRange stands for the Go runtime panic raised by the
unconditional header reads (data[0], data[1], data[10] through data[29])
when the input is shorter than they require. -/
inductive DecodeError where
  | invalidSignature : DecodeError
  | unsupportedBitDepth : DecodeError
  | indexOutOfRange : DecodeError
deriving DecidableEq

/-- The decoded image: the image.NewRGBA matrix produced by
decodeCustomBMP, row-major, top-down. -/
structure DecodedImage where
  width : Nat
  height : Nat
  pix : List (List RGBA)
deriving DecidableEq

/-- Pixel-array byte offset, u32 at offset 10. -/
def bmpDataOffset (d : List Nat) : Nat := u32at d 10

/-- Header size, u32 at offset 14. -/
def bmpHeaderSize (d : List Nat) : Nat := u32at d 14

/-- Width: absolute value of the signed i32 at offset 18. -/
def bmpWidth (d : List Nat) : Nat := (i32at d 18).natAbs

/-- Signed height, i32 at offset 22. -/
def bmpHeightI (d : List Nat) : Int := i32at d 22

/-- Height: absolute value of the signed height. -/
def bmpHeight (d : List Nat) : Nat := (bmpHeightI d).natAbs

/-- Rows are stored bottom-up unless the declared height is negative. -/
def bmpIsBottomUp (d : List Nat) : Bool := decide (0 ≤ bmpHeightI d)

/-- Bits per pixel, u16 at offset 28. -/
def bmpBpp (d : List Nat) : Nat := u16at d 28

/-- Palette-entry count as read from the header: u32 at offset 46, only
when the header size is at least 36 and the buffer is long enough for the
read (the Go condition len(data) > 49); zero otherwise. -/
def bmpNumColorsRaw (d : List Nat) : Nat :=
  if 36 ≤ bmpHeaderSize d ∧ 49 < d.length then u32at d 46 else 0

/-- Palette-entry count after defaulting: when the header count is zero
and bits per pixel is at most 8, default to 2 to the bits per pixel. -/
def bmpNumColors (d : List Nat) : Nat :=
  if bmpNumColorsRaw d = 0 ∧ bmpBpp d ≤ 8 then 2 ^ bmpBpp d else bmpNumColorsRaw d

/-- Row byte stride: rows are padded to 4-byte alignment. -/
def bmpRowSize (w bpp : Nat) : Nat := ((w * bpp + 31) / 32) * 4

/-- The palette table as read by the source loop: entry i holds the
B,G,R bytes at offset off + 4i when they lie inside the buffer. The Go
loop stops at the first entry whose bytes are out of range; since the
entry offsets increase with i, the stopped loop leaves exactly the
entries from the first out-of-range one onward at the zero value of
color.RGBA, which is what the per-entry conditional expresses. -/
def rawPalette (d : List Nat) (off n : Nat) : List RGBA :=
  (List.range n).map fun i =>
    if off + i * 4 + 2 < d.length then
      ⟨byteAt d (off + i * 4 + 2), byteAt d (off + i * 4 + 1), byteAt d (off + i * 4), 255⟩
    else ⟨0, 0, 0, 0⟩

/-- The palette after the default substitution: when the table has fewer
than 2 entries, replace it by the black and white pair. -/
def paletteDefaulted (d : List Nat) (off n : Nat) : List RGBA :=
  if (rawPalette d off n).length < 2 then [⟨0, 0, 0, 255⟩, ⟨255, 255, 255, 255⟩]
  else rawPalette d off n

/-- The palette used for sampling: dark mode swaps the two entries when
the format is exactly 1-bit with a 2-entry palette. -/
def decodePalette (d : List Nat) (headerSize numColors bpp : Nat) (darkMode : Bool) :
    List RGBA :=
  if darkMode = true ∧ bpp = 1 ∧ (paletteDefaulted d (14 + headerSize) numColors).length = 2 then
    [(paletteDefaulted d (14 + headerSize) numColors).getD 1 ⟨0, 0, 0, 0⟩,
     (paletteDefaulted d (14 + headerSize) numColors).getD 0 ⟨0, 0, 0, 0⟩]
  else paletteDefaulted d (14 + headerSize) numColors

/-- The palette variable of decodeCustomBMP: built only for the indexed
bit depths 1, 4 and 8, nil otherwise. -/
def bmpPalette (d : List Nat) (darkMode : Bool) : List RGBA :=
  if bmpBpp d = 1 ∨ bmpBpp d = 4 ∨ bmpBpp d = 8 then
    decodePalette d (bmpHeaderSize d) (bmpNumColors d) (bmpBpp d) darkMode
  else []

/-- Source row for output row y: bottom-up storage reads row
height - 1 - y, top-down storage reads row y. -/
def bmpSrcY (height : Nat) (isBottomUp : Bool) (y : Nat) : Nat :=
  if isBottomUp then height - 1 - y else y

/-- The 24/32-bit sample: B,G,R bytes at pos, alpha from pos + 3 for
32-bit input when that byte is strictly inside the buffer, else opaque;
the whole sample is skipped (matrix zero value) when pos + 3 reaches past
the buffer end. -/
def sampleDirect (d : List Nat) (pos bpp : Nat) : RGBA :=
  if d.length < pos + 3 then ⟨0, 0, 0, 0⟩
  else
    ⟨byteAt d (pos + 2), byteAt d (pos + 1), byteAt d pos,
     if bpp = 32 ∧ pos + 3 < d.length then byteAt d (pos + 3) else 255⟩

/-- The 16-bit sample: little-endian 5-6-5 value expanded by plain shifts
(no top-bit replication in this decoder), opaque alpha. -/
def sample565 (d : List Nat) (pos : Nat) : RGBA :=
  if d.length ≤ pos + 1 then ⟨0, 0, 0, 0⟩
  else ⟨(u16at d pos / 2048 % 32) * 8, (u16at d pos / 32 % 64) * 4,
        (u16at d pos % 32) * 8, 255⟩

/-- Palette lookup for the 8-bit and 4-bit paths: indices beyond the
palette fall back to opaque black. -/
def paletteLookup (palette : List RGBA) (index : Nat) : RGBA :=
  if index < palette.length then palette.getD index ⟨0, 0, 0, 0⟩ else ⟨0, 0, 0, 255⟩

/-- Nibble selection for the 4-bit path: high nibble for even x, low
nibble for odd x. -/
def nibbleAt (d : List Nat) (pos x : Nat) : Nat :=
  if x % 2 = 0 then byteAt d pos / 16 % 16 else byteAt d pos % 16

/-- Single-bit extraction for the 1-bit path, most significant bit
first. -/
def bitAt (d : List Nat) (pos x : Nat) : Nat :=
  byteAt d pos / 2 ^ (7 - x % 8) % 2

/-- Color of a 1-bit sample: the palette entry for the bit with alpha
forced opaque; with a palette shorter than the bit index, black for bit 0
and white otherwise. -/
def onebitColor (palette : List RGBA) (bit : Nat) : RGBA :=
  if bit < palette.length then
    ⟨(palette.getD bit ⟨0, 0, 0, 0⟩).r, (palette.getD bit ⟨0, 0, 0, 0⟩).g,
     (palette.getD bit ⟨0, 0, 0, 0⟩).b, 255⟩
  else if bit = 0 then ⟨0, 0, 0, 255⟩ else ⟨255, 255, 255, 255⟩

/-- One pixel of the decodeCustomBMP loop body: dispatch on bits per
pixel, with each path guarding its byte accesses against the buffer end
and leaving the pixel at the matrix zero value when the access would be
out of range. The final branch is unreachable in a successful decode:
the unsupported-depth error fires before any pixel is produced. -/
def bmpPixel (d : List Nat) (dataOffset rowSize bpp height : Nat) (isBottomUp : Bool)
    (palette : List RGBA) (x y : Nat) : RGBA :=
  if bpp = 24 ∨ bpp = 32 then
    sampleDirect d (dataOffset + bmpSrcY height isBottomUp y * rowSize + x * bpp / 8) bpp
  else if bpp = 16 then
    sample565 d (dataOffset + bmpSrcY height isBottomUp y * rowSize + x * 2)
  else if bpp = 8 then
    if d.length ≤ dataOffset + bmpSrcY height isBottomUp y * rowSize + x then ⟨0, 0, 0, 0⟩
    else paletteLookup palette
      (byteAt d (dataOffset + bmpSrcY height isBottomUp y * rowSize + x))
  else if bpp = 4 then
    if d.length ≤ dataOffset + bmpSrcY height isBottomUp y * rowSize + x / 2 then ⟨0, 0, 0, 0⟩
    else paletteLookup palette
      (nibbleAt d (dataOffset + bmpSrcY height isBottomUp y * rowSize + x / 2) x)
  else if bpp = 1 then
    if d.length ≤ dataOffset + bmpSrcY height isBottomUp y * rowSize + x / 8 then ⟨0, 0, 0, 0⟩
    else onebitColor palette
      (bitAt d (dataOffset + bmpSrcY height isBottomUp y * rowSize + x / 8) x)
  else ⟨0, 0, 0, 0⟩

/-- The full pixel matrix of decodeCustomBMP, row-major, top-down. -/
def bmpMatrix (d : List Nat) (darkMode : Bool) : List (List RGBA) :=
  (List.range (bmpHeight d)).map fun y =>
    (List.range (bmpWidth d)).map fun x =>
      bmpPixel d (bmpDataOffset d) (bmpRowSize (bmpWidth d) (bmpBpp d)) (bmpBpp d)
        (bmpHeight d) (bmpIsBottomUp d) (bmpPalette d darkMode) x y

/-- The bit depths the pixel loop supports. -/
def bppSupported (b : Nat) : Prop :=
  b = 1 ∨ b = 4 ∨ b = 8 ∨ b = 16 ∨ b = 24 ∨ b = 32

instance (b : Nat) : Decidable (bppSupported b) := by
  unfold bppSupported
  infer_instance

/-- decodeCustomBMP from the source. The signature bytes are checked with
the Go short-circuit order (data[1] is only read when data[0] is the
letter B), inputs too short for the unconditional header reads give the
index panic, and the unsupported-depth error is raised from the first
loop iteration, hence only when both dimensions are positive. -/
def decodeCustomBMP (data : List Nat) (darkMode : Bool) : Except DecodeError DecodedImage :=
  if data.length = 0 then .error .indexOutOfRange
  else if ¬(byteAt data 0 = 66) then .error .invalidSignature
  else if data.length < 2 then .error .indexOutOfRange
  else if ¬(byteAt data 1 = 77) then .error .invalidSignature
  else if data.length < 30 then .error .indexOutOfRange
  else if 0 < bmpWidth data ∧ 0 < bmpHeight data ∧ ¬bppSupported (bmpBpp data) then
    .error .unsupportedBitDepth
  else .ok ⟨bmpWidth data, bmpHeight data, bmpMatrix data darkMode⟩

/-- Number of palette entries whose bytes lie inside the buffer. -/
def countRecoverable (d : List Nat) (off n : Nat) : Nat :=
  ((List.range n).filter (fun i => decide (off + i * 4 + 2 < d.length))).length

/-- A height-by-width matrix entirely at the matrix zero value. -/
def blackTransparentMatrix (w h : Nat) : List (List RGBA) :=
  List.replicate h (List.replicate w ⟨0, 0, 0, 0⟩)

/-- The opaque version of a palette entry, as the 1-bit sample path
produces it. -/
def withA255 (p : RGBA) : RGBA := ⟨p.r, p.g, p.b, 255⟩

/-- Exchange the colors of the two entries of a 2-entry palette in a
pixel value; pixels carrying neither entry (skipped pixels at the matrix
zero value) are left alone. -/
def swapPal (pal : List RGBA) (c : RGBA) : RGBA :=
  if c = withA255 (pal.getD 0 ⟨0, 0, 0, 0⟩) then withA255 (pal.getD 1 ⟨0, 0, 0, 0⟩)
  else if c = withA255 (pal.getD 1 ⟨0, 0, 0, 0⟩) then withA255 (pal.getD 0 ⟨0, 0, 0, 0⟩)
  else c

/-- The 2 by 2, 24-bit, bottom-up input of the end-to-end row-order test:
signature, pixel offset 54, header size 40, width 2, height 2 (positive:
bottom-up), 24 bits per pixel; the byte stream stores the red,green row
first and the blue,white row second, each row padded to 8 bytes. -/
def c4data : List Nat :=
  [66, 77, 0, 0, 0, 0, 0, 0, 0, 0, 54, 0, 0, 0, 40, 0, 0, 0,
   2, 0, 0, 0, 2, 0, 0, 0, 1, 0, 24, 0,
   0, 0, 0, 0, 0, 0, 0, 0, 0, 0, 0, 0, 0, 0, 0, 0, 0, 0, 0, 0, 0, 0, 0, 0,
   0, 0, 255, 0, 255, 0, 0, 0,
   255, 0, 0, 255, 255, 255, 0, 0]

/-- The 2 by 2, 1-bit input of the palette-swap test: header size 40,
palette entries black then white at offset 54, pixel rows at offset 62
with bytes 128,0,0,0 and 0,0,0,0. -/
def c5data : List Nat :=
  [66, 77, 0, 0, 0, 0, 0, 0, 0, 0, 62, 0, 0, 0, 40, 0, 0, 0,
   2, 0, 0, 0, 2, 0, 0, 0, 1, 0, 1, 0,
   0, 0, 0, 0, 0, 0, 0, 0, 0, 0, 0, 0, 0, 0, 0, 0, 2, 0, 0, 0, 0, 0, 0, 0,
   0, 0, 0, 0, 255, 255, 255, 0,
   128, 0, 0, 0, 0, 0, 0, 0]

/-- The 1-bit input of the palette-recovery counterexample: header size
1000 places the palette table far past the end of the 34-byte buffer, so
no palette entry is recoverable, while the pixel byte at offset 30 is in
range. -/
def c7data : List Nat :=
  [66, 77, 0, 0, 0, 0, 0, 0, 0, 0, 30, 0, 0, 0, 232, 3, 0, 0,
   1, 0, 0, 0, 1, 0, 0, 0, 0, 0, 1, 0, 128, 0, 0, 0]

/-- The pixel loop's byte access for output pixel (x,y) reaches past the
end of the input: the per-depth skip conditions of the source, namely
pos + 3 > len for the 24/32-bit sample, pos + 1 >= len for the 16-bit
sample, and pos >= len for the 8-, 4- and 1-bit samples, with pos the
byte position each path computes. True for depths outside the supported
set, whose pixels are never produced by a successful decode. -/
def bmpAccessPastEnd (d : List Nat) (off rs bpp h : Nat) (bu : Bool) (x y : Nat) : Prop :=
  if bpp = 24 ∨ bpp = 32 then d.length < off + bmpSrcY h bu y * rs + x * bpp / 8 + 3
  else if bpp = 16 then d.length ≤ off + bmpSrcY h bu y * rs + x * 2 + 1
  else if bpp = 8 then d.length ≤ off + bmpSrcY h bu y * rs + x
  else if bpp = 4 then d.length ≤ off + bmpSrcY h bu y * rs + x / 2
  else if bpp = 1 then d.length ≤ off + bmpSrcY h bu y * rs + x / 8
  else True

instance (d : List Nat) (off rs bpp h : Nat) (bu : Bool) (x y : Nat) :
    Decidable (bmpAccessPastEnd d off rs bpp h bu x y) := by
  unfold bmpAccessPastEnd
  infer_instance

-- Helper lemmas about byte reads after writes.

theorem byteAt_set_self (d : List Nat) (i v : Nat) (h : i < d.length) :
    byteAt (d.set i v) i = v % 256 := by
  simp [byteAt, List.getD_eq_getElem?_getD, List.getElem?_set_eq_of_lt _ h]

theorem byteAt_set_ne (d : List Nat) (i j v : Nat) (h : i ≠ j) :
    byteAt (d.set i v) j = byteAt d j := by
  simp [byteAt, List.getD_eq_getElem?_getD, List.getElem?_set_ne h]

theorem offset_bound (x y w h s bpp8 : Nat) (hx : x < w) (hy : y < h)
    (hs : w * bpp8 ≤ s) : y * s + x * bpp8 + bpp8 ≤ s * h := by
  have h1 : (x + 1) * bpp8 ≤ w * bpp8 := Nat.mul_le_mul_right _ hx
  have h2 : s * (y + 1) ≤ s * h := Nat.mul_le_mul_left _ hy
  calc y * s + x * bpp8 + bpp8 = y * s + (x + 1) * bpp8 := by ring
    _ ≤ y * s + w * bpp8 := by omega
    _ ≤ y * s + s := by omega
    _ = s * (y + 1) := by ring
    _ ≤ s * h := h2

theorem chan8 (v : Nat) (h : v < 256) : v * 257 / 256 % 256 = v := by
  have h1 : v * 257 / 256 = v := by omega
  rw [h1, Nat.mod_eq_of_lt h]

theorem rgbaToRGB565_lt (r g b : Nat) : rgbaToRGB565 r g b < 65536 := by
  unfold rgbaToRGB565
  have h1 : r / 8 % 32 < 32 := Nat.mod_lt _ (by omega)
  have h2 : g / 4 % 64 < 64 := Nat.mod_lt _ (by omega)
  have h3 : b / 8 % 32 < 32 := Nat.mod_lt _ (by omega)
  omega

theorem rgb565_extract (r g b : Nat) :
    rgb565ToRGBA (rgbaToRGB565 r g b) =
      ⟨(r / 8 % 32) * 8 + (r / 8 % 32) * 8 / 32,
       (g / 4 % 64) * 4 + (g / 4 % 64) * 4 / 64,
       (b / 8 % 32) * 8 + (b / 8 % 32) * 8 / 32, 255⟩ := by
  unfold rgb565ToRGBA rgbaToRGB565
  have h1 : r / 8 % 32 < 32 := Nat.mod_lt _ (by omega)
  have h2 : g / 4 % 64 < 64 := Nat.mod_lt _ (by omega)
  have h3 : b / 8 % 32 < 32 := Nat.mod_lt _ (by omega)
  have e1 : ((r / 8 % 32) * 2048 + (g / 4 % 64) * 32 + b / 8 % 32) / 2048 % 32 = r / 8 % 32 := by
    omega
  have e2 : ((r / 8 % 32) * 2048 + (g / 4 % 64) * 32 + b / 8 % 32) / 32 % 64 = g / 4 % 64 := by
    omega
  have e3 : ((r / 8 % 32) * 2048 + (g / 4 % 64) * 32 + b / 8 % 32) % 32 = b / 8 % 32 := by
    omega
  rw [e1, e2, e3]

theorem dist565_5bit (v : Nat) (h : v < 256) :
    Nat.dist ((v / 8 % 32) * 8 + (v / 8 % 32) * 8 / 32) v ≤ 8 := by
  simp only [Nat.dist]
  omega

theorem dist565_6bit (v : Nat) (h : v < 256) :
    Nat.dist ((v / 4 % 64) * 4 + (v / 4 % 64) * 4 / 64) v ≤ 4 := by
  simp only [Nat.dist]
  omega

-- Characterizations of At and SetChannels at each depth, once the bounds
-- check and the mapped-length guard are known to pass.

theorem At_depth24 (d : List Nat) (w h s : Nat) (x y : Int)
    (hoob : ¬(x < 0 ∨ y < 0 ∨ (w : Int) ≤ x ∨ (h : Int) ≤ y))
    (hg : ¬(d.length ≤ y.toNat * s + x.toNat * (24 / 8) + 2)) :
    (Framebuffer.mk d w h s 24).At x y =
      ⟨byteAt d (y.toNat * s + x.toNat * (24 / 8) + 2),
       byteAt d (y.toNat * s + x.toNat * (24 / 8) + 1),
       byteAt d (y.toNat * s + x.toNat * (24 / 8)), 255⟩ := by
  simp only [Framebuffer.At, fbOffset]
  rw [if_neg hoob, if_neg hg]
  norm_num

theorem At_depth32 (d : List Nat) (w h s : Nat) (x y : Int)
    (hoob : ¬(x < 0 ∨ y < 0 ∨ (w : Int) ≤ x ∨ (h : Int) ≤ y))
    (hg : ¬(d.length ≤ y.toNat * s + x.toNat * (32 / 8) + 3)) :
    (Framebuffer.mk d w h s 32).At x y =
      ⟨byteAt d (y.toNat * s + x.toNat * (32 / 8) + 2),
       byteAt d (y.toNat * s + x.toNat * (32 / 8) + 1),
       byteAt d (y.toNat * s + x.toNat * (32 / 8)),
       byteAt d (y.toNat * s + x.toNat * (32 / 8) + 3)⟩ := by
  simp only [Framebuffer.At, fbOffset]
  rw [if_neg hoob, if_neg hg]
  norm_num

theorem At_depth16 (d : List Nat) (w h s : Nat) (x y : Int)
    (hoob : ¬(x < 0 ∨ y < 0 ∨ (w : Int) ≤ x ∨ (h : Int) ≤ y))
    (hg : ¬(d.length ≤ y.toNat * s + x.toNat * (16 / 8) + 1)) :
    (Framebuffer.mk d w h s 16).At x y =
      rgb565ToRGBA (byteAt d (y.toNat * s + x.toNat * (16 / 8)) +
        byteAt d (y.toNat * s + x.toNat * (16 / 8) + 1) * 256) := by
  simp only [Framebuffer.At, fbOffset]
  rw [if_neg hoob, if_neg hg]
  norm_num

theorem SetChannels_depth24 (d : List Nat) (w h s : Nat) (x y : Int) (r g b a : Nat)
    (hoob : ¬(x < 0 ∨ y < 0 ∨ (w : Int) ≤ x ∨ (h : Int) ≤ y))
    (hg : ¬(d.length ≤ y.toNat * s + x.toNat * (24 / 8) + 2)) :
    (Framebuffer.mk d w h s 24).SetChannels x y r g b a =
      Framebuffer.mk (((d.set (y.toNat * s + x.toNat * (24 / 8)) (b / 256 % 256)).set
        (y.toNat * s + x.toNat * (24 / 8) + 1) (g / 256 % 256)).set
        (y.toNat * s + x.toNat * (24 / 8) + 2) (r / 256 % 256)) w h s 24 := by
  simp only [Framebuffer.SetChannels, fbOffset]
  rw [if_neg hoob, if_neg hg]
  norm_num

theorem SetChannels_depth32 (d : List Nat) (w h s : Nat) (x y : Int) (r g b a : Nat)
    (hoob : ¬(x < 0 ∨ y < 0 ∨ (w : Int) ≤ x ∨ (h : Int) ≤ y))
    (hg : ¬(d.length ≤ y.toNat * s + x.toNat * (32 / 8) + 3)) :
    (Framebuffer.mk d w h s 32).SetChannels x y r g b a =
      Framebuffer.mk ((((d.set (y.toNat * s + x.toNat * (32 / 8)) (b / 256 % 256)).set
        (y.toNat * s + x.toNat * (32 / 8) + 1) (g / 256 % 256)).set
        (y.toNat * s + x.toNat * (32 / 8) + 2) (r / 256 % 256)).set
        (y.toNat * s + x.toNat * (32 / 8) + 3) (a / 256 % 256)) w h s 32 := by
  simp only [Framebuffer.SetChannels, fbOffset]
  rw [if_neg hoob, if_neg hg]
  norm_num

theorem SetChannels_depth16 (d : List Nat) (w h s : Nat) (x y : Int) (r g b a : Nat)
    (hoob : ¬(x < 0 ∨ y < 0 ∨ (w : Int) ≤ x ∨ (h : Int) ≤ y))
    (hg : ¬(d.length ≤ y.toNat * s + x.toNat * (16 / 8) + 1)) :
    (Framebuffer.mk d w h s 16).SetChannels x y r g b a =
      Framebuffer.mk ((d.set (y.toNat * s + x.toNat * (16 / 8))
        (rgbaToRGB565 (r / 256 % 256) (g / 256 % 256) (b / 256 % 256) % 256)).set
        (y.toNat * s + x.toNat * (16 / 8) + 1)
        (rgbaToRGB565 (r / 256 % 256) (g / 256 % 256) (b / 256 % 256) / 256 % 256)) w h s 16 := by
  simp only [Framebuffer.SetChannels, fbOffset]
  rw [if_neg hoob, if_neg hg]
  norm_num

/-- C1: for every color depth in 16, 24, 32 and every in-bounds coordinate
of a properly mapped surface (mapped length stride times height, and a row
holds at least width pixels), Set followed by At returns the color reduced
to the channel precision of the depth: exactly (with opaque alpha) for 24
bits, exactly for 32 bits, and within each channel quantization step (8
for the 5-bit fields, 4 for the 6-bit field, alpha forced opaque) for 16
bits. -/
theorem c1_setPixel_getPixel_roundtrip
    (fb : Framebuffer) (x y : Int) (c : RGBA)
    (hx0 : 0 ≤ x) (hx : x < (fb.width : Int)) (hy0 : 0 ≤ y) (hy : y < (fb.height : Int))
    (hs : fb.width * (fb.colorDepth / 8) ≤ fb.stride)
    (hlen : fb.data.length = fb.stride * fb.height)
    (hr : c.r < 256) (hg : c.g < 256) (hb : c.b < 256) (ha : c.a < 256) :
    (fb.colorDepth = 24 → (fb.Set x y c).At x y = ⟨c.r, c.g, c.b, 255⟩) ∧
    (fb.colorDepth = 32 → (fb.Set x y c).At x y = c) ∧
    (fb.colorDepth = 16 →
      Nat.dist ((fb.Set x y c).At x y).r c.r ≤ 8 ∧
      Nat.dist ((fb.Set x y c).At x y).g c.g ≤ 4 ∧
      Nat.dist ((fb.Set x y c).At x y).b c.b ≤ 8 ∧
      ((fb.Set x y c).At x y).a = 255) := by
  obtain ⟨d, w, h, s, cd⟩ := fb
  obtain ⟨cr, cg, cb, ca⟩ := c
  simp only at hx hy hs hlen hr hg hb ha ⊢
  have hoob : ¬(x < 0 ∨ y < 0 ∨ (w : Int) ≤ x ∨ (h : Int) ≤ y) := by omega
  have hxw : x.toNat < w := by omega
  have hyh : y.toNat < h := by omega
  refine ⟨?_, ?_, ?_⟩
  · -- 24-bit case
    intro h24
    subst h24
    have hofs : y.toNat * s + x.toNat * (24 / 8) + (24 / 8) ≤ s * h :=
      offset_bound _ _ _ _ _ _ hxw hyh hs
    have hguard : ¬(d.length ≤ y.toNat * s + x.toNat * (24 / 8) + 2) := by omega
    simp only [Framebuffer.Set]
    rw [SetChannels_depth24 _ _ _ _ _ _ _ _ _ _ hoob hguard,
        At_depth24 _ _ _ _ _ _ hoob (by simp only [List.length_set]; omega)]
    rw [byteAt_set_self _ _ _ (by simp only [List.length_set]; omega),
        byteAt_set_ne _ _ _ _ (by omega),
        byteAt_set_self _ _ _ (by simp only [List.length_set]; omega),
        byteAt_set_ne _ _ _ _ (by omega), byteAt_set_ne _ _ _ _ (by omega),
        byteAt_set_self _ _ _ (by omega)]
    rw [chan8 _ hr, chan8 _ hg, chan8 _ hb]
    simp [Nat.mod_eq_of_lt hr, Nat.mod_eq_of_lt hg, Nat.mod_eq_of_lt hb]
  · -- 32-bit case
    intro h32
    subst h32
    have hofs : y.toNat * s + x.toNat * (32 / 8) + (32 / 8) ≤ s * h :=
      offset_bound _ _ _ _ _ _ hxw hyh hs
    have hguard : ¬(d.length ≤ y.toNat * s + x.toNat * (32 / 8) + 3) := by omega
    simp only [Framebuffer.Set]
    rw [SetChannels_depth32 _ _ _ _ _ _ _ _ _ _ hoob hguard,
        At_depth32 _ _ _ _ _ _ hoob (by simp only [List.length_set]; omega)]
    rw [byteAt_set_ne _ _ _ _ (by omega),
        byteAt_set_self _ _ _ (by simp only [List.length_set]; omega),
        byteAt_set_ne _ _ _ _ (by omega), byteAt_set_ne _ _ _ _ (by omega),
        byteAt_set_self _ _ _ (by simp only [List.length_set]; omega),
        byteAt_set_ne _ _ _ _ (by omega), byteAt_set_ne _ _ _ _ (by omega),
        byteAt_set_ne _ _ _ _ (by omega), byteAt_set_self _ _ _ (by omega),
        byteAt_set_self _ _ _ (by simp only [List.length_set]; omega)]
    rw [chan8 _ hr, chan8 _ hg, chan8 _ hb, chan8 _ ha]
    simp [Nat.mod_eq_of_lt hr, Nat.mod_eq_of_lt hg, Nat.mod_eq_of_lt hb, Nat.mod_eq_of_lt ha]
  · -- 16-bit case
    intro h16
    subst h16
    have hofs : y.toNat * s + x.toNat * (16 / 8) + (16 / 8) ≤ s * h :=
      offset_bound _ _ _ _ _ _ hxw hyh hs
    have hguard : ¬(d.length ≤ y.toNat * s + x.toNat * (16 / 8) + 1) := by omega
    have hplt : rgbaToRGB565 cr cg cb < 65536 := rgbaToRGB565_lt cr cg cb
    simp only [Framebuffer.Set]
    rw [SetChannels_depth16 _ _ _ _ _ _ _ _ _ _ hoob hguard,
        At_depth16 _ _ _ _ _ _ hoob (by simp only [List.length_set]; omega)]
    rw [byteAt_set_ne _ _ _ _ (by omega), byteAt_set_self _ _ _ (by omega),
        byteAt_set_self _ _ _ (by simp only [List.length_set]; omega)]
    rw [chan8 _ hr, chan8 _ hg, chan8 _ hb]
    have hval : rgbaToRGB565 cr cg cb % 256 % 256 +
        rgbaToRGB565 cr cg cb / 256 % 256 % 256 * 256 = rgbaToRGB565 cr cg cb := by omega
    rw [hval, rgb565_extract]
    exact ⟨dist565_5bit _ hr, dist565_6bit _ hg, dist565_5bit _ hb, rfl⟩

/-- Witness for C1 at a concrete 32-bit surface. -/
theorem c1_witness :
    ((Framebuffer.mk (List.replicate 16 0) 2 2 8 32).Set 0 0 ⟨10, 20, 30, 40⟩).At 0 0 =
      ⟨10, 20, 30, 40⟩ :=
  (c1_setPixel_getPixel_roundtrip (Framebuffer.mk (List.replicate 16 0) 2 2 8 32)
    0 0 ⟨10, 20, 30, 40⟩ (by decide) (by decide) (by decide) (by decide) (by decide)
    (by decide) (by decide) (by decide) (by decide) (by decide)).2.1 rfl

/-- C2: for every coordinate outside the surface bounds, At returns the
zero color and Set leaves the framebuffer, in particular every byte of the
mapped region, unchanged; both are total functions of the state, for any
surface state and any color. -/
theorem c2_out_of_bounds_safe (fb : Framebuffer) (x y : Int) (c : RGBA)
    (h : x < 0 ∨ y < 0 ∨ (fb.width : Int) ≤ x ∨ (fb.height : Int) ≤ y) :
    fb.At x y = ⟨0, 0, 0, 0⟩ ∧ fb.Set x y c = fb := by
  constructor
  · simp only [Framebuffer.At]
    rw [if_pos h]
  · simp only [Framebuffer.Set, Framebuffer.SetChannels]
    rw [if_pos h]

/-- Witness for C2 at a concrete out-of-bounds coordinate. -/
theorem c2_witness :
    (Framebuffer.mk (List.replicate 16 0) 2 2 8 32).At 5 0 = ⟨0, 0, 0, 0⟩ ∧
    (Framebuffer.mk (List.replicate 16 0) 2 2 8 32).Set 5 0 ⟨1, 2, 3, 4⟩ =
      Framebuffer.mk (List.replicate 16 0) 2 2 8 32 :=
  c2_out_of_bounds_safe (Framebuffer.mk (List.replicate 16 0) 2 2 8 32) 5 0 ⟨1, 2, 3, 4⟩
    (by decide)

/-- C10: reads through a sub-region view are not clipped to the view: at
any point outside the view rectangle but inside the parent bounds, At
through the view returns the parent pixel, while Set through the view at
the same point leaves the parent surface unchanged. -/
theorem c10_subimage_read_write_asymmetry (fb : Framebuffer) (r : Rect) (x y : Int) (c : RGBA)
    (hout : ¬ ptIn x y (fb.SubImage r).bounds)
    (hinx0 : 0 ≤ x) (hinx : x < (fb.width : Int)) (hiny0 : 0 ≤ y) (hiny : y < (fb.height : Int)) :
    (fb.SubImage r).At x y = fb.At x y ∧ ((fb.SubImage r).Set x y c).fb = fb := by
  constructor
  · simp only [subFramebuffer.At, Framebuffer.SubImage]
    split <;> rfl
  · simp only [subFramebuffer.Set]
    rw [if_neg hout]
    simp only [Framebuffer.SubImage]
    split <;> rfl

/-- Witness for C10: a 4x4 surface, view rectangle [1,3)x[1,3), point
(0,0) outside the view but inside the parent. -/
theorem c10_witness :
    ((Framebuffer.mk (List.replicate 64 7) 4 4 16 32).SubImage ⟨1, 1, 3, 3⟩).At 0 0 =
      (Framebuffer.mk (List.replicate 64 7) 4 4 16 32).At 0 0 ∧
    (((Framebuffer.mk (List.replicate 64 7) 4 4 16 32).SubImage ⟨1, 1, 3, 3⟩).Set 0 0
      ⟨1, 2, 3, 4⟩).fb = Framebuffer.mk (List.replicate 64 7) 4 4 16 32 :=
  c10_subimage_read_write_asymmetry (Framebuffer.mk (List.replicate 64 7) 4 4 16 32)
    ⟨1, 1, 3, 3⟩ 0 0 ⟨1, 2, 3, 4⟩ (by decide) (by decide) (by decide) (by decide) (by decide)

/-- C6: acquiring on a marker whose recorded pid is not alive succeeds and
replaces the stale marker with the caller identifier; acquiring on a
marker whose recorded pid is alive fails with the busy error carrying that
pid and leaves the marker unchanged. -/
theorem c6_lock_acquire (alive : Int → Bool) (selfPid pid : Int) (s : LockState)
    (hm : s.marker = some pid) :
    (alive pid = false → lockAcquire alive selfPid s = (none, ⟨some selfPid⟩)) ∧
    (alive pid = true → lockAcquire alive selfPid s = (some (.deviceBusy pid), s)) := by
  obtain ⟨m⟩ := s
  subst hm
  constructor
  · intro hdead
    simp [lockAcquire, hdead]
  · intro hlive
    simp [lockAcquire, hlive]

/-- Witness for C6: a stale marker from pid 7 is replaced by pid 42. -/
theorem c6_witness :
    lockAcquire (fun _ => false) 42 ⟨some 7⟩ = (none, ⟨some 42⟩) :=
  (c6_lock_acquire (fun _ => false) 42 7 ⟨some 7⟩ rfl).1 rfl

/-- C9 counterexample: with probed depth 32 and probed stride 4000 on a
width-960 surface, forcing depth 32 (equal to the probed depth) still
recomputes the stride to 3840, so the stride from platform metadata is
not kept when the forced depth equals the probed depth. -/
theorem c9_counterexample :
    (applyForcedDepth (Framebuffer.mk [] 960 540 4000 32) 32).stride = 3840 ∧
    ¬((applyForcedDepth (Framebuffer.mk [] 960 540 4000 32) 32).stride = 4000) := by
  constructor
  · rfl
  · decide

/-- C9 amended: the override happens exactly when the forced depth is one
of 16, 24, 32 — regardless of whether it differs from the probed depth —
and then the stride is recomputed as width times depth over 8; for any
other forced depth the surface keeps the probed depth and stride. -/
theorem c9_amended_forced_depth (fb : Framebuffer) (depth : Nat) :
    (depth = 16 ∨ depth = 24 ∨ depth = 32 →
      (applyForcedDepth fb depth).colorDepth = depth ∧
      (applyForcedDepth fb depth).stride = fb.width * (depth / 8)) ∧
    (¬(depth = 16 ∨ depth = 24 ∨ depth = 32) → applyForcedDepth fb depth = fb) := by
  constructor
  · intro hd
    simp [applyForcedDepth, hd]
  · intro hd
    simp [applyForcedDepth, hd]

/-- Witness for C9 amended at a forced depth equal to the probed one. -/
theorem c9_witness :
    (applyForcedDepth (Framebuffer.mk [] 960 540 4000 32) 32).colorDepth = 32 ∧
    (applyForcedDepth (Framebuffer.mk [] 960 540 4000 32) 32).stride = 960 * (32 / 8) :=
  (c9_amended_forced_depth (Framebuffer.mk [] 960 540 4000 32) 32).1 (by decide)

theorem decode_ok (data : List Nat) (dm : Bool) (h30 : 30 ≤ data.length)
    (hB : byteAt data 0 = 66) (hM : byteAt data 1 = 77)
    (hsupp : ¬(0 < bmpWidth data ∧ 0 < bmpHeight data ∧ ¬bppSupported (bmpBpp data))) :
    decodeCustomBMP data dm = .ok ⟨bmpWidth data, bmpHeight data, bmpMatrix data dm⟩ := by
  unfold decodeCustomBMP
  rw [if_neg (by omega), if_neg (not_not_intro hB), if_neg (by omega),
      if_neg (not_not_intro hM), if_neg (by omega), if_neg hsupp]

theorem bmpPixel_access_past_end (d : List Nat) (off rs bpp h : Nat) (bu : Bool)
    (pal : List RGBA) (x y : Nat) (hacc : bmpAccessPastEnd d off rs bpp h bu x y) :
    bmpPixel d off rs bpp h bu pal x y = ⟨0, 0, 0, 0⟩ := by
  unfold bmpAccessPastEnd at hacc
  unfold bmpPixel sampleDirect sample565
  split_ifs at hacc ⊢ <;> rfl

theorem bmpPixel_row_past_end (d : List Nat) (off rs bpp h : Nat) (bu : Bool)
    (pal : List RGBA) (x y : Nat) (hoff : d.length ≤ off + bmpSrcY h bu y * rs) :
    bmpPixel d off rs bpp h bu pal x y = ⟨0, 0, 0, 0⟩ :=
  bmpPixel_access_past_end d off rs bpp h bu pal x y (by
    unfold bmpAccessPastEnd
    split_ifs <;> first | trivial | omega)

theorem map_range_const {α : Type} (n : Nat) (c : α) :
    (List.range n).map (fun _ => c) = List.replicate n c := by
  induction n with
  | zero => rfl
  | succ k ih =>
    rw [List.range_succ, List.map_append, ih, List.map_singleton]
    exact (List.replicate_succ' _ _).symm

/-- C3: with a valid header (signature, enough bytes for the fixed
header, a supported bit depth) but a pixel-array offset at or past the
end of the buffer, decode succeeds with a matrix of the declared width
and height whose every pixel is the matrix zero value; and in general
any pixel whose own byte access reaches past the end of the input (the
per-depth skip condition of the pixel loop, covering mid-row truncation
with the row start still in bounds) stays at the matrix zero value
without failing the decode. -/
theorem c3_truncated_input_black_matrix (data : List Nat) (dm : Bool)
    (h30 : 30 ≤ data.length) (hB : byteAt data 0 = 66) (hM : byteAt data 1 = 77)
    (hbpp : bppSupported (bmpBpp data)) (hoff : data.length ≤ bmpDataOffset data) :
    decodeCustomBMP data dm = .ok ⟨bmpWidth data, bmpHeight data,
      blackTransparentMatrix (bmpWidth data) (bmpHeight data)⟩ ∧
    (∀ (off rs bpp h : Nat) (bu : Bool) (pal : List RGBA) (x y : Nat),
      bmpAccessPastEnd data off rs bpp h bu x y →
      bmpPixel data off rs bpp h bu pal x y = ⟨0, 0, 0, 0⟩) := by
  constructor
  · rw [decode_ok data dm h30 hB hM (by tauto)]
    have hmat : bmpMatrix data dm =
        blackTransparentMatrix (bmpWidth data) (bmpHeight data) := by
      unfold bmpMatrix blackTransparentMatrix
      rw [← map_range_const (bmpHeight data) (List.replicate (bmpWidth data) (⟨0,0,0,0⟩ : RGBA))]
      apply List.map_congr_left
      intro y hy
      rw [← map_range_const (bmpWidth data) (⟨0,0,0,0⟩ : RGBA)]
      apply List.map_congr_left
      intro x hx
      exact bmpPixel_row_past_end _ _ _ _ _ _ _ _ _
        (le_trans hoff (Nat.le_add_right _ _))
    rw [hmat]
  · intro off rs bpp h bu pal x y hacc
    exact bmpPixel_access_past_end _ _ _ _ _ _ _ _ _ hacc

/-- Witness for C3: a 30-byte input with a valid 24-bit header whose
pixel offset 100 lies past the end decodes to a 2 by 2 zero matrix; and
a mid-row truncated 24-bit pixel of the same input (row start 0 in
bounds, pixel bytes 30..32 past the 30-byte end) stays at the matrix
zero value. -/
theorem c3_witness :
    decodeCustomBMP [66, 77, 0, 0, 0, 0, 0, 0, 0, 0, 100, 0, 0, 0, 40, 0, 0, 0,
      2, 0, 0, 0, 2, 0, 0, 0, 0, 0, 24, 0] false =
      .ok ⟨2, 2, blackTransparentMatrix 2 2⟩ ∧
    bmpPixel [66, 77, 0, 0, 0, 0, 0, 0, 0, 0, 100, 0, 0, 0, 40, 0, 0, 0,
      2, 0, 0, 0, 2, 0, 0, 0, 0, 0, 24, 0] 0 8 24 2 false [] 10 0 = ⟨0, 0, 0, 0⟩ := by
  have h := c3_truncated_input_black_matrix
    [66, 77, 0, 0, 0, 0, 0, 0, 0, 0, 100, 0, 0, 0, 40, 0, 0, 0,
      2, 0, 0, 0, 2, 0, 0, 0, 0, 0, 24, 0] false
    (by decide) (by decide) (by decide) (by decide) (by decide)
  exact ⟨h.1, h.2 0 8 24 2 false [] 10 0 (by decide)⟩

/-- C4: decoding the concrete bottom-up file yields row 0 blue,white and
row 1 red,green (the stored row order reversed); the row stride is the
least multiple of 4 bytes holding width times bits-per-pixel bits; and in
general a bottom-up pixel at output row y is the same sample a top-down
read takes from row height - 1 - y. -/
theorem c4_bottom_up_decode :
    decodeCustomBMP c4data false = .ok ⟨2, 2,
      [[⟨0, 0, 255, 255⟩, ⟨255, 255, 255, 255⟩],
       [⟨255, 0, 0, 255⟩, ⟨0, 255, 0, 255⟩]]⟩ ∧
    (∀ w bpp : Nat, w * bpp ≤ 8 * bmpRowSize w bpp ∧
      8 * bmpRowSize w bpp < w * bpp + 32 ∧ bmpRowSize w bpp % 4 = 0) ∧
    (∀ (d : List Nat) (off rs bpp h : Nat) (pal : List RGBA) (x y : Nat), y < h →
      bmpPixel d off rs bpp h true pal x y = bmpPixel d off rs bpp h false pal x (h - 1 - y)) := by
  refine ⟨by rfl, ?_, ?_⟩
  · intro w bpp
    unfold bmpRowSize
    omega
  · intro d off rs bpp h pal x y hy
    simp [bmpPixel, bmpSrcY]

/-- Witness for C4: the general bottom-up row mapping at concrete
arguments. -/
theorem c4_witness :
    bmpPixel [] 0 0 24 2 true [] 0 0 = bmpPixel [] 0 0 24 2 false [] 0 1 :=
  c4_bottom_up_decode.2.2 [] 0 0 24 2 [] 0 0 (by decide)

/-- C8 counterexample: the one-byte input holding just the letter B does
not begin with the two-byte magic, yet decode does not return the
invalid-signature error: it raises the index panic (the Go code reads
data[1] unconditionally once data[0] is B). -/
theorem c8_counterexample :
    decodeCustomBMP [66] false = .error .indexOutOfRange ∧
    DecodeError.indexOutOfRange ≠ DecodeError.invalidSignature := by
  exact ⟨by rfl, by decide⟩

/-- C8 amended: for every input of length at least 2 that does not begin
with the magic bytes B,M, decode returns the invalid-signature error;
inputs shorter than 2 bytes instead panic with an index error unless the
single byte already differs from B. -/
theorem c8_amended_invalid_signature (data : List Nat) (dm : Bool)
    (h2 : 2 ≤ data.length) (hsig : ¬(byteAt data 0 = 66 ∧ byteAt data 1 = 77)) :
    decodeCustomBMP data dm = .error .invalidSignature := by
  unfold decodeCustomBMP
  rw [if_neg (by omega)]
  by_cases hB : byteAt data 0 = 66
  · have hM : ¬(byteAt data 1 = 77) := by tauto
    rw [if_neg (not_not_intro hB), if_neg (by omega), if_pos hM]
  · rw [if_pos hB]

/-- Witness for C8 amended: a two-byte zero input. -/
theorem c8_witness : decodeCustomBMP [0, 0] false = .error .invalidSignature :=
  c8_amended_invalid_signature [0, 0] false (by decide) (by decide)

theorem bitAt_lt_two (d : List Nat) (pos x : Nat) : bitAt d pos x < 2 := by
  unfold bitAt
  omega

theorem onebitColor_eq (pal : List RGBA) (bit : Nat) (h : bit < pal.length) :
    onebitColor pal bit = withA255 (pal.getD bit ⟨0, 0, 0, 0⟩) := by
  unfold onebitColor withA255
  rw [if_pos h]

theorem swapPal_zero (pal : List RGBA) : swapPal pal ⟨0, 0, 0, 0⟩ = ⟨0, 0, 0, 0⟩ := by
  unfold swapPal withA255
  rw [if_neg (by simp), if_neg (by simp)]

theorem onebit_swap (pal : List RGBA) (hlen : pal.length = 2) (bit : Nat) (hb : bit < 2) :
    onebitColor [pal.getD 1 ⟨0, 0, 0, 0⟩, pal.getD 0 ⟨0, 0, 0, 0⟩] bit =
      swapPal pal (onebitColor pal bit) := by
  interval_cases bit
  · rw [onebitColor_eq _ _ (by simp), onebitColor_eq _ _ (by omega)]
    rw [List.getD_cons_zero]
    unfold swapPal
    rw [if_pos rfl]
  · rw [onebitColor_eq _ _ (by simp), onebitColor_eq _ _ (by omega)]
    rw [show ([pal.getD 1 ⟨0, 0, 0, 0⟩, pal.getD 0 ⟨0, 0, 0, 0⟩].getD 1 ⟨0, 0, 0, 0⟩)
        = pal.getD 0 ⟨0, 0, 0, 0⟩ from rfl]
    unfold swapPal
    by_cases heq : withA255 (pal.getD 1 ⟨0, 0, 0, 0⟩) = withA255 (pal.getD 0 ⟨0, 0, 0, 0⟩)
    · rw [if_pos heq]
      exact heq.symm
    · rw [if_neg heq, if_pos rfl]

theorem pixel_swap (d : List Nat) (off rs h : Nat) (bu : Bool) (pal : List RGBA)
    (hlen : pal.length = 2) (x y : Nat) :
    bmpPixel d off rs 1 h bu [pal.getD 1 ⟨0, 0, 0, 0⟩, pal.getD 0 ⟨0, 0, 0, 0⟩] x y =
      swapPal pal (bmpPixel d off rs 1 h bu pal x y) := by
  unfold bmpPixel
  simp only [if_neg (by decide : ¬((1 : Nat) = 24 ∨ (1 : Nat) = 32)),
             if_neg (by decide : ¬((1 : Nat) = 16)),
             if_neg (by decide : ¬((1 : Nat) = 8)),
             if_neg (by decide : ¬((1 : Nat) = 4)),
             if_pos (by decide : (1 : Nat) = 1), if_true]
  split_ifs with hg
  · exact (swapPal_zero pal).symm
  · exact onebit_swap pal hlen _ (bitAt_lt_two _ _ _)

/-- C5: for a 1-bit input whose decode palette has exactly 2 entries,
dark mode is implemented as a single swap of the two palette entries, and
the decoded matrix with dark mode on is, pixel for pixel, the palette
swap of the matrix with dark mode off. -/
theorem c5_dark_mode_palette_swap (data : List Nat)
    (h30 : 30 ≤ data.length) (hB : byteAt data 0 = 66) (hM : byteAt data 1 = 77)
    (hbpp : bmpBpp data = 1) (hlen : (bmpPalette data false).length = 2) :
    bmpPalette data true =
      [(bmpPalette data false).getD 1 ⟨0, 0, 0, 0⟩,
       (bmpPalette data false).getD 0 ⟨0, 0, 0, 0⟩] ∧
    decodeCustomBMP data true = .ok ⟨bmpWidth data, bmpHeight data,
      (bmpMatrix data false).map (fun row => row.map (swapPal (bmpPalette data false)))⟩ := by
  have hpf : bmpPalette data false =
      paletteDefaulted data (14 + bmpHeaderSize data) (bmpNumColors data) := by
    simp [bmpPalette, decodePalette, hbpp]
  have hlen2 : (paletteDefaulted data (14 + bmpHeaderSize data) (bmpNumColors data)).length
      = 2 := by rw [← hpf]; exact hlen
  have hswap : bmpPalette data true =
      [(bmpPalette data false).getD 1 ⟨0, 0, 0, 0⟩,
       (bmpPalette data false).getD 0 ⟨0, 0, 0, 0⟩] := by
    rw [hpf]
    simp [bmpPalette, decodePalette, hbpp, hlen2]
  refine ⟨hswap, ?_⟩
  rw [decode_ok data true h30 hB hM (by simp [bppSupported, hbpp])]
  have hmat : bmpMatrix data true =
      (bmpMatrix data false).map (fun row => row.map (swapPal (bmpPalette data false))) := by
    unfold bmpMatrix
    rw [List.map_map]
    apply List.map_congr_left
    intro y hy
    simp only [Function.comp_apply]
    rw [List.map_map]
    apply List.map_congr_left
    intro x hx
    simp only [Function.comp_apply]
    rw [hswap, hbpp]
    exact pixel_swap data (bmpDataOffset data)
      (bmpRowSize (bmpWidth data) 1) (bmpHeight data) (bmpIsBottomUp data)
      (bmpPalette data false) hlen x y
  rw [hmat]

/-- Witness for C5 at the concrete 1-bit input. -/
theorem c5_witness :
    bmpPalette c5data true =
      [(bmpPalette c5data false).getD 1 ⟨0, 0, 0, 0⟩,
       (bmpPalette c5data false).getD 0 ⟨0, 0, 0, 0⟩] :=
  (c5_dark_mode_palette_swap c5data (by decide) (by decide) (by decide)
    (by decide) (by decide)).1

/-- C7 counterexample: zero palette entries are recoverable from c7data,
yet the decoder does not substitute the default black and white palette:
the palette stays at two zero-color entries and the decoded pixel (whose
bit selects entry 1) comes out opaque black instead of the white the
default palette would give. -/
theorem c7_counterexample :
    countRecoverable c7data (14 + bmpHeaderSize c7data) (bmpNumColors c7data) = 0 ∧
    bmpNumColors c7data = 2 ∧
    bmpPalette c7data false ≠ [⟨0, 0, 0, 255⟩, ⟨255, 255, 255, 255⟩] ∧
    decodeCustomBMP c7data false = .ok ⟨1, 1, [[⟨0, 0, 0, 255⟩]]⟩ := by
  refine ⟨by decide, by decide, by decide, by rfl⟩

/-- C7 amended: the default black and white palette is substituted
exactly when the declared entry count (after defaulting to two to the
bits per pixel when the header count is zero) is below 2; with a declared
count of at least 2 the table keeps that length and entries whose bytes
lie past the buffer end simply remain at the zero color. -/
theorem c7_amended_default_palette (d : List Nat) (off n : Nat) :
    (n < 2 → paletteDefaulted d off n = [⟨0, 0, 0, 255⟩, ⟨255, 255, 255, 255⟩]) ∧
    (2 ≤ n → paletteDefaulted d off n = rawPalette d off n ∧
      (paletteDefaulted d off n).length = n) ∧
    (∀ i : Nat, i < n → d.length ≤ off + i * 4 + 2 →
      (rawPalette d off n).getD i ⟨1, 1, 1, 1⟩ = ⟨0, 0, 0, 0⟩) := by
  have hlen : (rawPalette d off n).length = n := by simp [rawPalette]
  refine ⟨?_, ?_, ?_⟩
  · intro h
    unfold paletteDefaulted
    rw [if_pos (by omega)]
  · intro h
    unfold paletteDefaulted
    rw [if_neg (by omega)]
    exact ⟨rfl, hlen⟩
  · intro i hi hd
    unfold rawPalette
    rw [List.getD_eq_getElem?_getD, List.getElem?_map, List.getElem?_range hi]
    show (if off + i * 4 + 2 < d.length then
        (⟨byteAt d (off + i * 4 + 2), byteAt d (off + i * 4 + 1),
          byteAt d (off + i * 4), 255⟩ : RGBA)
      else ⟨0, 0, 0, 0⟩) = ⟨0, 0, 0, 0⟩
    rw [if_neg (by omega)]

/-- Witness for C7 amended: an empty table is replaced by the default
palette. -/
theorem c7_witness :
    paletteDefaulted [] 0 0 = [⟨0, 0, 0, 255⟩, ⟨255, 255, 255, 255⟩] :=
  (c7_amended_default_palette [] 0 0).1 (by decide)
